import Mathlib

/-!
Verification development for the api-server service (src/apps/api-server/app.py).

The service handles GET requests over four routes (health, metrics, echo
prefix, not-found), keeps a process-wide metrics store in the two dicts
request_count and request_duration, and renders the store in a
Prometheus-style plain-text exposition format.

The embedding models Python dicts as association lists with insertion-order
semantics (updating an existing key keeps its position; a new key is appended
at the end), and models the wall-clock quantities (elapsed duration, current
timestamp) as inputs of an arbitrary printable type, since the handler only
ever stores and echoes them.
-/

namespace ApiServer

/-- Python dict lookup with default: d.get(k, d0). First (unique) matching
key wins. -/
def dictGet {α : Type} (d : List (String × α)) (k : String) (d0 : α) : α :=
  match d with
  | [] => d0
  | kv :: rest => if kv.1 == k then kv.2 else dictGet rest k d0

/-- Python dict lookup without default, as an Option. -/
def dictFind {α : Type} (d : List (String × α)) (k : String) : Option α :=
  match d with
  | [] => none
  | kv :: rest => if kv.1 == k then some kv.2 else dictFind rest k

/-- Python dict assignment d[k] = v: update in place when the key exists
(keeping its position), append at the end when it does not. -/
def dictSet {α : Type} (d : List (String × α)) (k : String) (v : α) :
    List (String × α) :=
  match d with
  | [] => [(k, v)]
  | kv :: rest => if kv.1 == k then (k, v) :: rest else kv :: dictSet rest k v

/-- Key membership test: k in d. -/
def hasKey {α : Type} (d : List (String × α)) (k : String) : Bool :=
  match d with
  | [] => false
  | kv :: rest => kv.1 == k || hasKey rest k

/-- Python str.startswith: the characters of pre form a prefix of the
characters of s. -/
def startswith (s pre : String) : Bool :=
  pre.data.isPrefixOf s.data

/-- The process-wide metrics state: the module-level dicts request_count
(app.py line 19) and request_duration (line 20). δ is the type of stored
duration values. -/
structure Store (δ : Type) where
  request_count : List (String × Nat)
  request_duration : List (String × δ)
deriving DecidableEq, Repr

/-- Both dicts start empty at process start (app.py lines 19-20). -/
def initStore {δ : Type} : Store δ := ⟨[], []⟩

/-- The environment variables the handler reads: os.getenv returns none when
the variable is unset. -/
structure Env where
  appVersion : Option String
  hostname : Option String
deriving DecidableEq, Repr

/-- Response bodies, by shape: the JSON health object (status, version), the
plain-text metrics exposition, the JSON echo object (message, hostname,
timestamp), and the JSON not-found object (error). -/
inductive RBody (δ : Type) where
  | health (status version : String)
  | metricsText (text : String)
  | echo (message hostname : String) (timestamp : δ)
  | notFound (error : String)
deriving DecidableEq, Repr

/-- An HTTP response: status code, Content-Type header, body. -/
structure Response (δ : Type) where
  status : Nat
  contentType : String
  body : RBody δ
deriving DecidableEq, Repr

/-- One exposition line of the request-count series:
api_requests_total with the endpoint label set to the path (app.py
line 89). -/
def countLine (ec : String × Nat) : String :=
  "api_requests_total\x7bendpoint=\"" ++ ec.1 ++ "\"\x7d " ++ toString ec.2

/-- One exposition line of the duration series:
api_request_duration_seconds with the endpoint label set to the path
(app.py line 94). -/
def durationLine {δ : Type} [ToString δ] (ed : String × δ) : String :=
  "api_request_duration_seconds\x7bendpoint=\"" ++ ed.1 ++ "\"\x7d " ++ toString ed.2

/-- APIHandler._generate_metrics (app.py lines 82-96): start from the two
counter header comment lines, append one line per request_count entry, append
the two gauge header comment lines, append one line per request_duration
entry, and join with newlines plus a trailing newline. The for loops over the
dict items are folds that append one formatted line each. -/
def generate_metrics {δ : Type} [ToString δ] (st : Store δ) : String :=
  let metrics : List String :=
    ["# HELP api_requests_total Total number of requests",
     "# TYPE api_requests_total counter"]
  let metrics := st.request_count.foldl
    (fun acc ec => acc ++ [countLine ec]) metrics
  let metrics := metrics ++ ["# HELP api_request_duration_seconds Request duration"]
  let metrics := metrics ++ ["# TYPE api_request_duration_seconds gauge"]
  let metrics := st.request_duration.foldl
    (fun acc ed => acc ++ [durationLine ed]) metrics
  String.intercalate "\n" metrics ++ "\n"

/-- APIHandler.do_GET (app.py lines 30-80) as a pure function from the
request (routing path, elapsed duration since request start, current
timestamp, environment) and the current store to the response and the new
store. The four branches follow the source order: exact /health, exact
/metrics, the /api/echo prefix (which mutates both dicts at the request
path), and the 404 fall-through. -/
def do_GET {δ : Type} [ToString δ] (env : Env) (duration timestamp : δ)
    (path : String) (st : Store δ) : Response δ × Store δ :=
  if path == "/health" then
    (⟨200, "application/json",
      .health "healthy" (env.appVersion.getD "1.0.0")⟩, st)
  else if path == "/metrics" then
    (⟨200, "text/plain", .metricsText (generate_metrics st)⟩, st)
  else if startswith path "/api/echo" then
    (⟨200, "application/json",
      .echo "pong" (env.hostname.getD "unknown") timestamp⟩,
     ⟨dictSet st.request_count path (dictGet st.request_count path 0 + 1),
      dictSet st.request_duration path duration⟩)
  else
    (⟨404, "application/json", .notFound "Not found"⟩, st)

/-- Observable events of one do_GET invocation, in program order: response
line, headers, body write, structured log emission, and the store mutations
(dict writes). clearStore is included so that the absence of any clearing
operation is expressible; the source never emits it. -/
inductive Event (δ : Type) where
  | sendResponse (status : Nat)
  | sendHeader (key value : String)
  | endHeaders
  | writeBody (body : RBody δ)
  | logInfo (msg : String)
  | incrementCount (path : String)
  | recordDuration (path : String) (d : δ)
  | clearStore
deriving DecidableEq, Repr

/-- Store-mutation events. -/
def Event.isMutation {δ : Type} : Event δ → Bool
  | .incrementCount _ => true
  | .recordDuration _ _ => true
  | _ => false

/-- Body-write events (self.wfile.write of the response body). -/
def Event.isWriteBody {δ : Type} : Event δ → Bool
  | .writeBody _ => true
  | _ => false

/-- Store-clearing events. -/
def Event.isClear {δ : Type} : Event δ → Bool
  | .clearStore => true
  | _ => false

/-- The event trace of one do_GET invocation, in source order (app.py lines
30-80). In the echo branch the two dict writes (lines 59-60) happen before
send_response (line 62) and the body write (line 71). -/
def do_GET_events {δ : Type} [ToString δ] (env : Env) (duration timestamp : δ)
    (path : String) (st : Store δ) : List (Event δ) :=
  if path == "/health" then
    [.sendResponse 200, .sendHeader "Content-Type" "application/json",
     .endHeaders,
     .writeBody (.health "healthy" (env.appVersion.getD "1.0.0")),
     .logInfo "Health check passed"]
  else if path == "/metrics" then
    [.sendResponse 200, .sendHeader "Content-Type" "text/plain",
     .endHeaders,
     .writeBody (.metricsText (generate_metrics st))]
  else if startswith path "/api/echo" then
    [.incrementCount path, .recordDuration path duration,
     .sendResponse 200, .sendHeader "Content-Type" "application/json",
     .endHeaders,
     .writeBody (.echo "pong" (env.hostname.getD "unknown") timestamp),
     .logInfo ("Request: " ++ path ++ " - Duration: " ++ toString duration ++ "s")]
  else
    [.sendResponse 404, .sendHeader "Content-Type" "application/json",
     .endHeaders,
     .writeBody (.notFound "Not found")]

/-- No store mutation occurs strictly before the first body write of the
trace. -/
def noMutationBeforeBody {δ : Type} (es : List (Event δ)) : Bool :=
  (es.takeWhile (fun e => !e.isWriteBody)).all (fun e => !e.isMutation)

/-- No store mutation occurs at or after the first body write of the
trace. -/
def noMutationFromBody {δ : Type} (es : List (Event δ)) : Bool :=
  (es.dropWhile (fun e => !e.isWriteBody)).all (fun e => !e.isMutation)

/-- Every store mutation in the trace is licensed by the echo flag. -/
def mutationOnlyEcho {δ : Type} (echo : Bool) (es : List (Event δ)) : Bool :=
  es.all (fun e => !e.isMutation || echo)

/-- The trace never clears the store. -/
def neverCleared {δ : Type} (es : List (Event δ)) : Bool :=
  es.all (fun e => !e.isClear)

/-- One GET request, as the handler sees it: the routing path (including any
query string), the elapsed duration, and the timestamp. -/
structure Request (δ : Type) where
  path : String
  duration : δ
  timestamp : δ
deriving DecidableEq, Repr

/-- The store after handling one request. -/
def handle {δ : Type} [ToString δ] (env : Env) (st : Store δ)
    (r : Request δ) : Store δ :=
  (do_GET env r.duration r.timestamp r.path st).2

/-- The store after handling a sequence of requests in order. -/
def handleAll {δ : Type} [ToString δ] (env : Env) (reqs : List (Request δ))
    (st : Store δ) : Store δ :=
  reqs.foldl (handle env) st

/-- The exporter output as spec section 4.3 words it: the counter comment
header block, one line per counts entry, the gauge comment header block, one
line per lastDuration entry, all joined by newlines and terminated by a
trailing newline. -/
def exporterSpecOutput {δ : Type} [ToString δ] (st : Store δ) : String :=
  String.intercalate "\n"
    (["# HELP api_requests_total Total number of requests",
      "# TYPE api_requests_total counter"]
     ++ st.request_count.map countLine
     ++ ["# HELP api_request_duration_seconds Request duration",
         "# TYPE api_request_duration_seconds gauge"]
     ++ st.request_duration.map durationLine)
  ++ "\n"

/-- The store invariant of the implicit claim: both dicts hold exactly the
same keys in the same order, and every stored count is at least 1. -/
def storeInv {δ : Type} (st : Store δ) : Prop :=
  st.request_count.map Prod.fst = st.request_duration.map Prod.fst
  ∧ ∀ pc ∈ st.request_count, 1 ≤ pc.2

/-! ### Dictionary lemmas -/

theorem dictGet_dictSet_self {α : Type} (d : List (String × α)) (k : String)
    (v d0 : α) : dictGet (dictSet d k v) k d0 = v := by
  induction d with
  | nil => simp [dictSet, dictGet]
  | cons kv rest ih =>
    by_cases h : kv.1 == k
    · simp [dictSet, dictGet, h]
    · simp [dictSet, dictGet, h, ih]

theorem dictGet_dictSet_ne {α : Type} (d : List (String × α)) {k k' : String}
    (v d0 : α) (h : k' ≠ k) :
    dictGet (dictSet d k v) k' d0 = dictGet d k' d0 := by
  have hkk : (k == k') = false := beq_eq_false_iff_ne.mpr (Ne.symm h)
  induction d with
  | nil => simp [dictSet, dictGet, hkk]
  | cons kv rest ih =>
    by_cases hk : kv.1 == k
    · have hk' : (kv.1 == k') = false := by
        have := eq_of_beq hk
        simpa [this] using hkk
      simp [dictSet, dictGet, hk, hk', hkk]
    · simp [dictSet, dictGet, hk, ih]

theorem dictFind_dictSet_self {α : Type} (d : List (String × α)) (k : String)
    (v : α) : dictFind (dictSet d k v) k = some v := by
  induction d with
  | nil => simp [dictSet, dictFind]
  | cons kv rest ih =>
    by_cases h : kv.1 == k
    · simp [dictSet, dictFind, h]
    · simp [dictSet, dictFind, h, ih]

theorem dictGet_of_hasKey_false {α : Type} (d : List (String × α))
    (k : String) (d0 : α) (h : hasKey d k = false) : dictGet d k d0 = d0 := by
  induction d with
  | nil => simp [dictGet]
  | cons kv rest ih =>
    simp [hasKey] at h
    simp [dictGet, h.1, ih h.2]

theorem dictSet_of_hasKey_false {α : Type} (d : List (String × α))
    (k : String) (v : α) (h : hasKey d k = false) :
    dictSet d k v = d ++ [(k, v)] := by
  induction d with
  | nil => simp [dictSet]
  | cons kv rest ih =>
    simp [hasKey] at h
    simp [dictSet, h.1, ih h.2]

theorem keys_dictSet {α : Type} (d : List (String × α)) (k : String) (v : α) :
    (dictSet d k v).map Prod.fst =
      if hasKey d k then d.map Prod.fst else d.map Prod.fst ++ [k] := by
  induction d with
  | nil => simp [dictSet, hasKey]
  | cons kv rest ih =>
    by_cases h : kv.1 == k
    · have := eq_of_beq h
      simp [dictSet, hasKey, h, this]
    · by_cases h2 : hasKey rest k <;> simp [dictSet, hasKey, h, h2, ih]

theorem mem_dictSet {α : Type} {d : List (String × α)} {k : String} {v : α}
    {pc : String × α} (h : pc ∈ dictSet d k v) : pc = (k, v) ∨ pc ∈ d := by
  induction d with
  | nil => simpa [dictSet] using h
  | cons kv rest ih =>
    by_cases hk : kv.1 == k
    · simp [dictSet, hk] at h
      rcases h with h | h
      · exact Or.inl h
      · exact Or.inr (List.mem_cons_of_mem _ h)
    · simp [dictSet, hk] at h
      rcases h with h | h
      · exact Or.inr (h ▸ List.mem_cons_self _ _)
      · rcases ih h with h' | h'
        · exact Or.inl h'
        · exact Or.inr (List.mem_cons_of_mem _ h')

theorem hasKey_dictSet {α : Type} (d : List (String × α)) (k k' : String)
    (v : α) : hasKey (dictSet d k v) k' = (k == k' || hasKey d k') := by
  induction d with
  | nil => simp [dictSet, hasKey]
  | cons kv rest ih =>
    by_cases h : kv.1 == k
    · have := eq_of_beq h
      simp [dictSet, hasKey, h, this]
    · simp only [dictSet, hasKey, h, if_neg, ih]
      by_cases h1 : kv.1 == k' <;> by_cases h2 : k == k' <;> simp [h1, h2]

/-! ### Routing helpers -/

theorem beq_health_false_of_echo {p : String}
    (h : startswith p "/api/echo" = true) : (p == "/health") = false := by
  cases hb : (p == "/health") with
  | false => rfl
  | true =>
    have hp : p = "/health" := eq_of_beq hb
    rw [hp] at h
    rw [show startswith "/health" "/api/echo" = false from by decide] at h
    cases h

theorem beq_metrics_false_of_echo {p : String}
    (h : startswith p "/api/echo" = true) : (p == "/metrics") = false := by
  cases hb : (p == "/metrics") with
  | false => rfl
  | true =>
    have hp : p = "/metrics" := eq_of_beq hb
    rw [hp] at h
    rw [show startswith "/metrics" "/api/echo" = false from by decide] at h
    cases h

theorem do_GET_echo {δ : Type} [ToString δ] (env : Env) (d ts : δ)
    (path : String) (st : Store δ) (h : startswith path "/api/echo" = true) :
    do_GET env d ts path st =
      (⟨200, "application/json",
        .echo "pong" (env.hostname.getD "unknown") ts⟩,
       ⟨dictSet st.request_count path (dictGet st.request_count path 0 + 1),
        dictSet st.request_duration path d⟩) := by
  simp [do_GET, beq_health_false_of_echo h, beq_metrics_false_of_echo h, h]

theorem do_GET_store_unchanged {δ : Type} [ToString δ] (env : Env) (d ts : δ)
    (path : String) (st : Store δ)
    (h : path = "/health" ∨ path = "/metrics" ∨
         startswith path "/api/echo" = false) :
    (do_GET env d ts path st).2 = st := by
  by_cases h1 : path == "/health"
  · simp [do_GET, h1]
  · by_cases h2 : path == "/metrics"
    · simp [do_GET, h1, h2]
    · have h3 : startswith path "/api/echo" = false := by
        rcases h with h | h | h
        · exact absurd (by simp [h]) h1
        · exact absurd (by simp [h]) h2
        · exact h
      simp [do_GET, h1, h2, h3]

/-! ### Claim theorems -/

/-- C1: for every GET request the response matches the routing table: exact
path "/health" yields 200 application/json with the health body (version =
APP_VERSION or "1.0.0"); exact path "/metrics" yields 200 text/plain with
the exporter output; any path with prefix "/api/echo" yields 200
application/json with the echo body (hostname = HOSTNAME or "unknown",
current timestamp); every other path yields 404 application/json with the
not-found body. -/
theorem c1_routing_table {δ : Type} [ToString δ] (env : Env) (d ts : δ)
    (path : String) (st : Store δ) :
    (path = "/health" →
      (do_GET env d ts path st).1 =
        ⟨200, "application/json",
         .health "healthy" (env.appVersion.getD "1.0.0")⟩)
    ∧ (path = "/metrics" →
      (do_GET env d ts path st).1 =
        ⟨200, "text/plain", .metricsText (generate_metrics st)⟩)
    ∧ (startswith path "/api/echo" = true →
      (do_GET env d ts path st).1 =
        ⟨200, "application/json",
         .echo "pong" (env.hostname.getD "unknown") ts⟩)
    ∧ (path ≠ "/health" → path ≠ "/metrics" →
       startswith path "/api/echo" = false →
      (do_GET env d ts path st).1 =
        ⟨404, "application/json", .notFound "Not found"⟩) := by
  refine ⟨?_, ?_, ?_, ?_⟩
  · rintro rfl
    simp [do_GET]
  · rintro rfl
    simp [do_GET]
  · intro h
    rw [do_GET_echo env d ts path st h]
  · intro h1 h2 h3
    simp [do_GET, beq_eq_false_iff_ne.mpr h1, beq_eq_false_iff_ne.mpr h2, h3]

/-- C1 witness: the four routing branches evaluated at the concrete paths
"/health", "/metrics", "/api/echo?x=1" and "/foo/bar". -/
theorem c1_routing_table_witness :
    ((do_GET ⟨some "2.0", some "h1"⟩ (3 : Nat) 9 "/health" initStore).1 =
      ⟨200, "application/json", .health "healthy" "2.0"⟩)
    ∧ ((do_GET ⟨some "2.0", some "h1"⟩ (3 : Nat) 9 "/metrics" initStore).1 =
      ⟨200, "text/plain", .metricsText (generate_metrics (initStore (δ := Nat)))⟩)
    ∧ ((do_GET ⟨some "2.0", some "h1"⟩ (3 : Nat) 9 "/api/echo?x=1" initStore).1 =
      ⟨200, "application/json", .echo "pong" "h1" 9⟩)
    ∧ ((do_GET ⟨some "2.0", some "h1"⟩ (3 : Nat) 9 "/foo/bar" initStore).1 =
      ⟨404, "application/json", .notFound "Not found"⟩) :=
  ⟨(c1_routing_table ⟨some "2.0", some "h1"⟩ 3 9 "/health" initStore).1 rfl,
   (c1_routing_table ⟨some "2.0", some "h1"⟩ 3 9 "/metrics" initStore).2.1 rfl,
   (c1_routing_table ⟨some "2.0", some "h1"⟩ 3 9 "/api/echo?x=1" initStore).2.2.1
     (by decide),
   (c1_routing_table ⟨some "2.0", some "h1"⟩ 3 9 "/foo/bar" initStore).2.2.2
     (by decide) (by decide) (by decide)⟩

/-- C2: for every request whose path starts with "/api/echo", handling the
request increments counts at that exact path by exactly 1 (an absent key
counting as 0) and overwrites lastDuration at that path with the elapsed
duration passed to the handler (last-write-wins). -/
theorem c2_echo_mutation {δ : Type} [ToString δ] (env : Env) (d ts : δ)
    (path : String) (st : Store δ)
    (h : startswith path "/api/echo" = true) :
    dictGet (do_GET env d ts path st).2.request_count path 0 =
      dictGet st.request_count path 0 + 1
    ∧ dictFind (do_GET env d ts path st).2.request_duration path = some d := by
  rw [do_GET_echo env d ts path st h]
  exact ⟨dictGet_dictSet_self _ _ _ _, dictFind_dictSet_self _ _ _⟩

/-- C2 witness: an echo request at "/api/echo?x=1" (a query-string path, so
matched by prefix) against a store already holding count 2 and duration 5 at
that path; the count becomes 3 and the duration is overwritten to 7. -/
theorem c2_echo_mutation_witness :
    startswith "/api/echo?x=1" "/api/echo" = true
    ∧ (dictGet (do_GET ⟨none, none⟩ (7 : Nat) 8 "/api/echo?x=1"
          ⟨[("/api/echo?x=1", 2)], [("/api/echo?x=1", 5)]⟩).2.request_count
          "/api/echo?x=1" 0 =
        dictGet [("/api/echo?x=1", 2)] "/api/echo?x=1" 0 + 1
       ∧ dictFind (do_GET ⟨none, none⟩ (7 : Nat) 8 "/api/echo?x=1"
          ⟨[("/api/echo?x=1", 2)], [("/api/echo?x=1", 5)]⟩).2.request_duration
          "/api/echo?x=1" = some 7) :=
  ⟨by decide,
   c2_echo_mutation ⟨none, none⟩ 7 8 "/api/echo?x=1"
     ⟨[("/api/echo?x=1", 2)], [("/api/echo?x=1", 5)]⟩ (by decide)⟩

/-- C6: requests to "/health", to "/metrics", and to any path outside the
"/api/echo" prefix leave both dicts of the metrics store completely
unchanged. -/
theorem c6_non_echo_frame {δ : Type} [ToString δ] (env : Env) (d ts : δ)
    (path : String) (st : Store δ)
    (h : path = "/health" ∨ path = "/metrics" ∨
         startswith path "/api/echo" = false) :
    (do_GET env d ts path st).2 = st :=
  do_GET_store_unchanged env d ts path st h

/-- C6 witness: a 404 request at "/foo/bar" against a nonempty store leaves
the store untouched. -/
theorem c6_non_echo_frame_witness :
    ("/foo/bar" = "/health" ∨ "/foo/bar" = "/metrics" ∨
      startswith "/foo/bar" "/api/echo" = false)
    ∧ (do_GET ⟨none, none⟩ (1 : Nat) 2 "/foo/bar"
        ⟨[("/api/echo", 4)], [("/api/echo", 6)]⟩).2 =
      ⟨[("/api/echo", 4)], [("/api/echo", 6)]⟩ :=
  ⟨by decide,
   c6_non_echo_frame ⟨none, none⟩ 1 2 "/foo/bar"
     ⟨[("/api/echo", 4)], [("/api/echo", 6)]⟩ (by decide)⟩

/-- C7: the version field of the "/health" response body is "1.0.0" when the
APP_VERSION environment variable is unset, and the environment-provided
value when it is set. -/
theorem c7_health_version {δ : Type} [ToString δ] (d ts : δ)
    (hostname : Option String) (st : Store δ) :
    ((do_GET ⟨none, hostname⟩ d ts "/health" st).1.body =
      .health "healthy" "1.0.0")
    ∧ ∀ v : String,
      (do_GET ⟨some v, hostname⟩ d ts "/health" st).1.body =
        .health "healthy" v := by
  constructor
  · simp [do_GET]
  · intro v
    simp [do_GET]

/-- Appending one image element per step is the same as appending the map. -/
theorem foldl_append_singleton {α β : Type} (f : α → β) (l : List α)
    (acc : List β) :
    l.foldl (fun a x => a ++ [f x]) acc = acc ++ l.map f := by
  induction l generalizing acc with
  | nil => simp
  | cons x xs ih => simp [ih]

/-- C3 counterexample: at the concrete echo request "/api/echo" (empty store,
unset environment, duration 0), the event trace contains a store mutation
strictly before the body write, so the store is not mutated only after the
echo response is completed. -/
theorem c3_counterexample :
    noMutationBeforeBody
      (do_GET_events ⟨none, none⟩ (0 : Nat) 0 "/api/echo" initStore) =
      false := by
  decide

/-- C3 amended: at every step of request handling the metrics store is
mutated only by the echo handler and only BEFORE the echo response body is
written (the two dict writes precede send_response and the body write), and
it is never explicitly cleared. -/
theorem c3_mutation_discipline {δ : Type} [ToString δ] (env : Env)
    (d ts : δ) (path : String) (st : Store δ) :
    neverCleared (do_GET_events env d ts path st) = true
    ∧ mutationOnlyEcho (startswith path "/api/echo")
        (do_GET_events env d ts path st) = true
    ∧ noMutationFromBody (do_GET_events env d ts path st) = true := by
  by_cases h1 : path == "/health"
  · simp [do_GET_events, h1, neverCleared, mutationOnlyEcho,
      noMutationFromBody, Event.isClear, Event.isMutation, Event.isWriteBody,
      List.dropWhile]
  · by_cases h2 : path == "/metrics"
    · simp [do_GET_events, h1, h2, neverCleared, mutationOnlyEcho,
        noMutationFromBody, Event.isClear, Event.isMutation,
        Event.isWriteBody, List.dropWhile]
    · by_cases h3 : startswith path "/api/echo"
      · simp [do_GET_events, h1, h2, h3, neverCleared, mutationOnlyEcho,
          noMutationFromBody, Event.isClear, Event.isMutation,
          Event.isWriteBody, List.dropWhile]
      · simp [do_GET_events, h1, h2, h3, neverCleared, mutationOnlyEcho,
          noMutationFromBody, Event.isClear, Event.isMutation,
          Event.isWriteBody, List.dropWhile]

/-- C4: on every metrics snapshot the exporter output equals, as a pure
function of the snapshot, the specified layout: counter HELP/TYPE header
block, one api_requests_total line per counts entry, gauge HELP/TYPE header
block, one api_request_duration_seconds line per lastDuration entry, joined
by newlines with a trailing newline. -/
theorem c4_exporter_format {δ : Type} [ToString δ] (st : Store δ) :
    generate_metrics st = exporterSpecOutput st := by
  simp only [generate_metrics, exporterSpecOutput, foldl_append_singleton]
  simp [List.append_assoc]

/-- C10: on the empty metrics store the exporter output is exactly the four
comment header lines joined by newlines plus the trailing newline, with no
metric value lines. -/
theorem c10_empty_exporter :
    generate_metrics (initStore (δ := Nat)) =
      "# HELP api_requests_total Total number of requests\n" ++
      "# TYPE api_requests_total counter\n" ++
      "# HELP api_request_duration_seconds Request duration\n" ++
      "# TYPE api_request_duration_seconds gauge\n" := by
  rfl

/-! ### Fold lemmas over request sequences -/

theorem handleAll_cons {δ : Type} [ToString δ] (env : Env) (r : Request δ)
    (rest : List (Request δ)) (st : Store δ) :
    handleAll env (r :: rest) st = handleAll env rest (handle env st r) :=
  rfl

theorem hasKey_append {α : Type} (d1 d2 : List (String × α)) (k : String) :
    hasKey (d1 ++ d2) k = (hasKey d1 k || hasKey d2 k) := by
  induction d1 with
  | nil => simp [hasKey]
  | cons kv rest ih => simp [hasKey, ih, Bool.or_assoc]

theorem handle_echo_counts {δ : Type} [ToString δ] (env : Env)
    (st : Store δ) (r : Request δ)
    (h : startswith r.path "/api/echo" = true) :
    (handle env st r).request_count =
      dictSet st.request_count r.path
        (dictGet st.request_count r.path 0 + 1) := by
  unfold handle
  rw [do_GET_echo env r.duration r.timestamp r.path st h]

theorem handle_count_le {δ : Type} [ToString δ] (env : Env) (st : Store δ)
    (r : Request δ) (k : String) :
    dictGet st.request_count k 0 ≤
      dictGet (handle env st r).request_count k 0 := by
  by_cases h : startswith r.path "/api/echo" = true
  · rw [handle_echo_counts env st r h]
    by_cases hk : k = r.path
    · subst hk
      rw [dictGet_dictSet_self]
      omega
    · rw [dictGet_dictSet_ne _ _ _ hk]
  · unfold handle
    rw [do_GET_store_unchanged env r.duration r.timestamp r.path st
      (Or.inr (Or.inr (Bool.eq_false_iff.mpr h)))]

theorem handle_hasKey_mono {δ : Type} [ToString δ] (env : Env)
    (st : Store δ) (r : Request δ) (k : String)
    (h : hasKey st.request_count k = true) :
    hasKey (handle env st r).request_count k = true := by
  by_cases he : startswith r.path "/api/echo" = true
  · rw [handle_echo_counts env st r he, hasKey_dictSet]
    simp [h]
  · unfold handle
    rw [do_GET_store_unchanged env r.duration r.timestamp r.path st
      (Or.inr (Or.inr (Bool.eq_false_iff.mpr he)))]
    exact h

theorem handleAll_same_path_counts {δ : Type} [ToString δ] (env : Env)
    (p : String) (h : startswith p "/api/echo" = true) :
    ∀ (reqs : List (Request δ)), (∀ r ∈ reqs, r.path = p) →
    ∀ (m : Nat) (durs : List (String × δ)),
      (handleAll env reqs ⟨[(p, m)], durs⟩).request_count =
        [(p, m + reqs.length)] := by
  intro reqs
  induction reqs with
  | nil =>
    intro _ m durs
    simp [handleAll]
  | cons r rest ih =>
    intro hp m durs
    have hr : r.path = p := hp r (List.mem_cons_self _ _)
    have hstep : handle env (⟨[(p, m)], durs⟩ : Store δ) r =
        ⟨[(p, m + 1)], dictSet durs p r.duration⟩ := by
      unfold handle
      rw [do_GET_echo env r.duration r.timestamp r.path _ (hr ▸ h)]
      simp [hr, dictGet, dictSet]
    rw [handleAll_cons, hstep,
      ih (fun r' hr' => hp r' (List.mem_cons_of_mem _ hr')) (m + 1) _]
    have : m + 1 + rest.length = m + (r :: rest).length := by
      simp [List.length_cons]
      omega
    rw [this]

theorem handleAll_fresh_counts {δ : Type} [ToString δ] (env : Env) :
    ∀ (reqs : List (Request δ)) (st : Store δ),
      (∀ r ∈ reqs, startswith r.path "/api/echo" = true) →
      (reqs.map Request.path).Nodup →
      (∀ r ∈ reqs, hasKey st.request_count r.path = false) →
      (handleAll env reqs st).request_count =
        st.request_count ++ reqs.map (fun r => (r.path, 1)) := by
  intro reqs
  induction reqs with
  | nil =>
    intro st _ _ _
    simp [handleAll]
  | cons r rest ih =>
    intro st hecho hnodup hfresh
    have he := hecho r (List.mem_cons_self _ _)
    have hf := hfresh r (List.mem_cons_self _ _)
    have hstep : (handle env st r).request_count =
        st.request_count ++ [(r.path, 1)] := by
      rw [handle_echo_counts env st r he,
        dictGet_of_hasKey_false _ _ _ hf,
        dictSet_of_hasKey_false _ _ _ hf]
    simp only [List.map_cons, List.nodup_cons] at hnodup
    have hfresh' : ∀ r' ∈ rest,
        hasKey (handle env st r).request_count r'.path = false := by
      intro r' hr'
      rw [hstep, hasKey_append]
      have h1 := hfresh r' (List.mem_cons_of_mem _ hr')
      have h2 : (r.path == r'.path) = false := by
        refine beq_eq_false_iff_ne.mpr ?_
        intro hcontra
        exact hnodup.1 (hcontra ▸ List.mem_map_of_mem Request.path hr')
      simp [hasKey, h1, h2]
    rw [handleAll_cons,
      ih (handle env st r) (fun r' hr' => hecho r' (List.mem_cons_of_mem _ hr'))
        hnodup.2 hfresh', hstep]
    simp

/-- C5: from the empty store, handling N echo requests to the same exact
path yields exactly one counts entry, holding N, for that path; handling N
echo requests with pairwise-distinct paths yields N distinct counts entries,
each holding 1, in request order. -/
theorem c5_count_accumulation {δ : Type} [ToString δ] (env : Env)
    (reqs : List (Request δ)) (p : String) :
    (startswith p "/api/echo" = true → (∀ r ∈ reqs, r.path = p) →
      0 < reqs.length →
      (handleAll env reqs initStore).request_count = [(p, reqs.length)])
    ∧ ((∀ r ∈ reqs, startswith r.path "/api/echo" = true) →
      (reqs.map Request.path).Nodup →
      (handleAll env reqs initStore).request_count =
        reqs.map (fun r => (r.path, 1))) := by
  constructor
  · intro hp hsame hlen
    cases reqs with
    | nil => cases hlen
    | cons r rest =>
      have hr : r.path = p := hsame r (List.mem_cons_self _ _)
      have hstep : handle env (initStore : Store δ) r =
          ⟨[(p, 1)], [(p, r.duration)]⟩ := by
        unfold handle
        rw [do_GET_echo env r.duration r.timestamp r.path _ (hr ▸ hp)]
        simp [initStore, hr, dictGet, dictSet]
      rw [handleAll_cons, hstep,
        handleAll_same_path_counts env p hp rest
          (fun r' hr' => hsame r' (List.mem_cons_of_mem _ hr')) 1 _]
      have : 1 + rest.length = (r :: rest).length := by
        simp [List.length_cons]
        omega
      rw [this]
  · intro hecho hnodup
    have := handleAll_fresh_counts env reqs initStore hecho hnodup
      (fun r _ => by simp [initStore, hasKey])
    simpa [initStore] using this

/-- C5 witness: three same-path echo requests accumulate to a single entry
with count 3; two distinct-query echo requests produce two entries, each
with count 1. -/
theorem c5_count_accumulation_witness :
    ((handleAll ⟨none, none⟩
        [⟨"/api/echo", 1, 1⟩, ⟨"/api/echo", 2, 2⟩, ⟨"/api/echo", 3, 3⟩]
        (initStore : Store Nat)).request_count = [("/api/echo", 3)])
    ∧ ((handleAll ⟨none, none⟩
        [⟨"/api/echo?x=1", 1, 1⟩, ⟨"/api/echo?x=2", 2, 2⟩]
        (initStore : Store Nat)).request_count =
          [("/api/echo?x=1", 1), ("/api/echo?x=2", 1)]) :=
  ⟨(c5_count_accumulation ⟨none, none⟩
      [⟨"/api/echo", 1, 1⟩, ⟨"/api/echo", 2, 2⟩, ⟨"/api/echo", 3, 3⟩]
      "/api/echo").1 (by decide) (by decide) (by decide),
   (c5_count_accumulation ⟨none, none⟩
      [⟨"/api/echo?x=1", 1, 1⟩, ⟨"/api/echo?x=2", 2, 2⟩] "/api/echo").2
      (by decide) (by decide)⟩

/-- C8: over any sequence of handled requests no counter ever decreases and
no counts entry is ever removed: the stored count at any key is monotonically
non-decreasing, and a present key stays present. -/
theorem c8_counts_monotone {δ : Type} [ToString δ] (env : Env)
    (reqs : List (Request δ)) (st : Store δ) (k : String) :
    dictGet st.request_count k 0 ≤
      dictGet (handleAll env reqs st).request_count k 0
    ∧ (hasKey st.request_count k = true →
      hasKey (handleAll env reqs st).request_count k = true) := by
  induction reqs generalizing st with
  | nil => simp [handleAll]
  | cons r rest ih =>
    rw [handleAll_cons]
    constructor
    · exact le_trans (handle_count_le env st r k) (ih (handle env st r)).1
    · intro h
      exact (ih (handle env st r)).2 (handle_hasKey_mono env st r k h)

/-- C8 witness: across an echo request, a health request, and a 404 request,
the counter at "/api/echo" rises from 4 to 5 and the key stays present. -/
theorem c8_counts_monotone_witness :
    (dictGet [("/api/echo", 4)] "/api/echo" 0 ≤
      dictGet (handleAll ⟨none, none⟩
        [⟨"/api/echo", 1, 1⟩, ⟨"/health", 2, 2⟩, ⟨"/foo", 3, 3⟩]
        (⟨[("/api/echo", 4)], [("/api/echo", 9)]⟩ : Store Nat)).request_count
        "/api/echo" 0)
    ∧ hasKey (handleAll ⟨none, none⟩
        [⟨"/api/echo", 1, 1⟩, ⟨"/health", 2, 2⟩, ⟨"/foo", 3, 3⟩]
        (⟨[("/api/echo", 4)], [("/api/echo", 9)]⟩ : Store Nat)).request_count
        "/api/echo" = true :=
  ⟨(c8_counts_monotone ⟨none, none⟩
      [⟨"/api/echo", 1, 1⟩, ⟨"/health", 2, 2⟩, ⟨"/foo", 3, 3⟩]
      ⟨[("/api/echo", 4)], [("/api/echo", 9)]⟩ "/api/echo").1,
   (c8_counts_monotone ⟨none, none⟩
      [⟨"/api/echo", 1, 1⟩, ⟨"/health", 2, 2⟩, ⟨"/foo", 3, 3⟩]
      ⟨[("/api/echo", 4)], [("/api/echo", 9)]⟩ "/api/echo").2 (by decide)⟩

theorem hasKey_eq_of_keys_eq {α β : Type} (d1 : List (String × α))
    (d2 : List (String × β)) (k : String)
    (h : d1.map Prod.fst = d2.map Prod.fst) : hasKey d1 k = hasKey d2 k := by
  induction d1 generalizing d2 with
  | nil =>
    cases d2 with
    | nil => rfl
    | cons kv2 rest2 => simp at h
  | cons kv rest ih =>
    cases d2 with
    | nil => simp at h
    | cons kv2 rest2 =>
      simp only [List.map_cons, List.cons.injEq] at h
      simp [hasKey, h.1, ih rest2 h.2]

theorem storeInv_handle {δ : Type} [ToString δ] (env : Env) (st : Store δ)
    (r : Request δ) (h : storeInv st) : storeInv (handle env st r) := by
  by_cases he : startswith r.path "/api/echo" = true
  · have hstep : handle env st r =
        ⟨dictSet st.request_count r.path
          (dictGet st.request_count r.path 0 + 1),
         dictSet st.request_duration r.path r.duration⟩ := by
      unfold handle
      rw [do_GET_echo env r.duration r.timestamp r.path st he]
    rw [hstep]
    constructor
    · show (dictSet st.request_count r.path _).map Prod.fst =
        (dictSet st.request_duration r.path _).map Prod.fst
      rw [keys_dictSet, keys_dictSet,
        hasKey_eq_of_keys_eq st.request_count st.request_duration r.path h.1]
      by_cases hk : hasKey st.request_duration r.path = true
      · simp [hk, h.1]
      · simp only [Bool.not_eq_true] at hk
        simp [hk, h.1]
    · intro pc hpc
      rcases mem_dictSet hpc with hpc | hpc
      · rw [hpc]
        omega
      · exact h.2 pc hpc
  · unfold handle
    rw [do_GET_store_unchanged env r.duration r.timestamp r.path st
      (Or.inr (Or.inr (Bool.eq_false_iff.mpr he)))]
    exact h

theorem storeInv_handleAll {δ : Type} [ToString δ] (env : Env) :
    ∀ (reqs : List (Request δ)) (st : Store δ),
      storeInv st → storeInv (handleAll env reqs st) := by
  intro reqs
  induction reqs with
  | nil =>
    intro st h
    exact h
  | cons r rest ih =>
    intro st h
    rw [handleAll_cons]
    exact ih (handle env st r) (storeInv_handle env st r h)

/-- C9: every metrics-store state reachable from the empty store by handling
a sequence of requests satisfies the invariant: counts and lastDuration hold
exactly the same keys, and every stored count is at least 1. -/
theorem c9_reachable_invariant {δ : Type} [ToString δ] (env : Env)
    (reqs : List (Request δ)) :
    storeInv (handleAll env reqs initStore) :=
  storeInv_handleAll env reqs initStore ⟨rfl, by simp [initStore]⟩

end ApiServer
